import Mathlib

/-!
Shallow embedding of the incus-track deployment orchestrator (src/deploy.py).

Python dicts are association lists, Python strings are `String`, and the
pyincus hypervisor collaborator is modelled as explicit state (`Hypervisor`)
plus oracle parameters for the outcomes of lifecycle calls: the result of the
pause/stop calls during teardown and the live `usedBy` reads performed after
the instance has been deleted. `sys.exit(1)` and uncaught Python exceptions
are both modelled as an `Except.error` outcome; hypervisor calls performed
before the abort are kept in the returned state/trace.
-/

namespace IncusTrack

/-- Python `d[k]` / `d.get(k)` on a dict, as an association-list lookup. -/
def dictLookup {α : Type} (d : List (String × α)) (k : String) : Option α :=
  (d.find? (fun kv => kv.1 == k)).map (fun kv => kv.2)

/-- Python `d[k] = v`: overwrite the existing entry in place, else append. -/
def dictInsert {α : Type} (d : List (String × α)) (k : String) (v : α) :
    List (String × α) :=
  if (dictLookup d k).isSome then
    d.map (fun kv => if kv.1 == k then (k, v) else kv)
  else d ++ [(k, v)]

/-- Python dict-unpacking merge `\x7b**old, **new\x7d`: keys of `old` keep their
position but take the value from `new` when present; keys only in `new` are
appended in order. -/
def dictMerge {α : Type} (old new : List (String × α)) : List (String × α) :=
  old.map (fun kv => (kv.1, ((dictLookup new kv.1).getD kv.2))) ++
    new.filter (fun kv => (dictLookup old kv.1).isNone)

/-- Character-wise check that lowercasing `a` (ASCII) yields `b`. -/
def charLowerEq (a b : Char) : Bool :=
  a == b || (65 ≤ a.toNat && a.toNat ≤ 90 && a.toNat + 32 == b.toNat)

/-- Python `s.lower() == lit` for an ASCII lowercase literal `lit`,
character list by character list. -/
def strLowerEq : List Char → List Char → Bool
  | [], [] => true
  | a :: as, b :: bs => charLowerEq a b && strLowerEq as bs
  | _, _ => false

/-- Python `instance.status.lower() == "running"`. -/
def statusIsRunning (status : String) : Bool :=
  strLowerEq status.data "running".data

/-- Whether `n` occurs at the start of `h`. -/
def leadsWith : List Char → List Char → Bool
  | _, [] => true
  | [], _ :: _ => false
  | a :: as, b :: bs => a == b && leadsWith as bs

/-- Whether `n` occurs contiguously anywhere in `h`. -/
def containsSeq : List Char → List Char → Bool
  | [], n => n.isEmpty
  | h@(_ :: t), n => leadsWith h n || containsSeq t n

/-- Python `needle in haystack` on strings (substring containment). -/
def strContains (haystack needle : String) : Bool :=
  containsSeq haystack.data needle.data

/-- Python truthiness of an optional string (`None` and `""` are falsy). -/
def pyTruthyStr : Option String → Bool
  | none => false
  | some s => !s.isEmpty

/-! ## Data model (hypervisor-owned entities, mirrored from pyincus) -/

/-- One entry of `instance.state["network"]["eth0"]["addresses"]`. -/
structure IfaceAddress where
  family : String
  scope : String
  address : String
deriving DecidableEq, Repr

/-- A single device's config map, e.g. `devices["eth0"]`. -/
abbrev DeviceMap := List (String × String)

/-- The per-instance device-override map, e.g. `instance.devices`. -/
abbrev Devices := List (String × DeviceMap)

structure Instance where
  name : String
  status : String
  devices : Devices
  expandedDevices : Devices
  stateAddresses : List IfaceAddress
deriving DecidableEq, Repr

/-- One port entry of a network forward resource. -/
structure ForwardPort where
  protocol : String
  listenPort : String
  targetAddress : String
  targetPort : String
deriving DecidableEq, Repr

structure NetForward where
  listenAddress : String
  ports : List ForwardPort
deriving DecidableEq, Repr

structure Network where
  name : String
  description : Option String
  config : List (String × String)
  forwards : List NetForward
deriving DecidableEq, Repr

structure ACL where
  name : String
  usedBy : List String
deriving DecidableEq, Repr

/-- The hypervisor-side state visible through one project. -/
structure Hypervisor where
  instances : List Instance
  networks : List Network
  acls : List ACL
deriving DecidableEq, Repr

/-- Observable hypervisor calls, in program order. -/
inductive Event where
  | computeACLs (names : List String)
  | removedPort (listenPort : String)
  | pause (name : String)
  | stop (name : String)
  | deleteInstance (name : String)
  | deleteACL (name : String)
  | copyInstance (name : String)
  | startInstance (name : String)
  | launchInstance (name : String)
  | setDescription (name : String)
deriving DecidableEq, Repr

/-- The pyincus `InstanceException` classes `destroy` distinguishes. -/
inductive IncusError where
  | instanceIsNotRunning
  | instanceIsAlreadyStopped
  | other (msg : String)
deriving DecidableEq, Repr

/-- Outcome of a run fragment: hypervisor state reached, calls made, and
either normal completion or an abort (`sys.exit(1)` / uncaught exception). -/
structure RunResult (α : Type) where
  state : Hypervisor
  trace : List Event
  outcome : Except String α
deriving Repr

/-! ## associatedACLs (src/deploy.py lines 177-191) -/

/-- `associatedACLs`: the ACLs whose `usedBy` has exactly one entry and that
entry contains the instance name as a substring (Python `in` on strings). -/
def associatedACLs (acls : List ACL) (instName : String) : List ACL :=
  acls.filter (fun acl => acl.usedBy.length == 1 &&
    strContains (acl.usedBy.headD "") instName)

/-! ## removeForwardPort (src/deploy.py lines 193-226) -/

/-- The address scan shared by `removeForwardPort` (running case) and
`setForwardsPorts`: walk the live eth0 addresses and break at the first
global-scope address of either family, recording it under its family. -/
def scanFirstGlobal : List IfaceAddress → Option String × Option String
  | [] => (none, none)
  | a :: rest =>
    if a.family == "inet" && a.scope == "global" then (some a.address, none)
    else if a.family == "inet6" && a.scope == "global" then (none, some a.address)
    else scanFirstGlobal rest

/-- Target-address discovery of `removeForwardPort`: a stopped instance reads
its eth0 device overrides, a running one scans live interface state. -/
def discoverTargets (inst : Instance) : Option String × Option String :=
  if !(statusIsRunning inst.status) then
    match dictLookup inst.devices "eth0" with
    | none => (none, none)
    | some eth0 => (dictLookup eth0 "ipv4.address", dictLookup eth0 "ipv6.address")
  else
    scanFirstGlobal inst.stateAddresses

/-- Python `port["target_address"] in [targetAddress4, targetAddress6]`. -/
def portMatches (t4 t6 : Option String) (p : ForwardPort) : Bool :=
  some p.targetAddress == t4 || some p.targetAddress == t6

/-- `forward.removePort(protocol=..., listenPorts=...)`: the hypervisor drops
every port entry with that protocol and listen port. -/
def NetForward.removePort (f : NetForward) (proto listenPorts : String) :
    NetForward :=
  { f with ports := f.ports.filter (fun p =>
      !(p.protocol == proto && p.listenPort == listenPorts)) }

/-- Two port entries with the same hypervisor key (protocol, listen port). -/
def sameKey (p q : ForwardPort) : Bool :=
  p.protocol == q.protocol && p.listenPort == q.listenPort

/-- One step of the inner loop of `removeForwardPort`: `port` ranges over the
snapshot of the forward's ports; a matching target triggers `removePort`. -/
def removePortsStep (t4 t6 : Option String) (acc : NetForward × List Event)
    (p : ForwardPort) : NetForward × List Event :=
  if portMatches t4 t6 p then
    (acc.1.removePort p.protocol p.listenPort, acc.2 ++ [Event.removedPort p.listenPort])
  else acc

/-- The inner loop of `removeForwardPort` over one forward resource. -/
def removeMatchingPorts (t4 t6 : Option String) (fwd : NetForward) :
    NetForward × List Event :=
  fwd.ports.foldl (removePortsStep t4 t6) (fwd, [])

/-- Replace a network (by name) in the project's network list. -/
def replaceNetwork (networks : List Network) (net : Network) : List Network :=
  networks.map (fun n => if n.name == net.name then net else n)

/-- `removeForwardPort`: discover the instance's last-known address(es), then
scan every forward of the instance's associated network and remove any port
entry whose target address equals a discovered address. -/
def removeForwardPort (st : Hypervisor) (inst : Instance) :
    Except String (Hypervisor × List Event) :=
  let t := discoverTargets inst
  if t.1.isNone && t.2.isNone then Except.ok (st, [])
  else
    match dictLookup inst.expandedDevices "eth0" with
    | none => Except.error "KeyError: eth0"
    | some eth0 =>
      match dictLookup eth0 "network" with
      | none => Except.error "KeyError: network"
      | some netName =>
        match st.networks.find? (fun n => n.name == netName) with
        | none => Except.error ("Network was not found: " ++ netName)
        | some net =>
          let r := net.forwards.foldl
            (fun (acc : List NetForward × List Event) (fwd : NetForward) =>
              let rf := removeMatchingPorts t.1 t.2 fwd
              (acc.1 ++ [rf.1], acc.2 ++ rf.2))
            ([], [])
          Except.ok
            ({ st with networks := replaceNetwork st.networks { net with forwards := r.1 } },
             r.2)

/-! ## destroy (src/deploy.py lines 103-141) -/

/-- Which pause outcomes the `except` clause around `instance.pause()`
swallows: success, or `InstanceIsNotRunningException`. -/
def pauseSwallows : Option IncusError → Bool
  | none => true
  | some IncusError.instanceIsNotRunning => true
  | some _ => false

/-- Which stop outcomes the `except` clause around `instance.stop()`
swallows: success, `InstanceIsAlreadyStoppedException`, or
`InstanceIsNotRunningException`. -/
def stopSwallows : Option IncusError → Bool
  | none => true
  | some IncusError.instanceIsNotRunning => true
  | some IncusError.instanceIsAlreadyStopped => true
  | some _ => false

/-- `destroy`: compute the ACLs to remove, remove matching forward ports,
pause (idempotently), stop (idempotently), delete the instance, then delete
each previously-computed ACL whose live `usedBy` (read through the
`usedByAfter` oracle, after the instance deletion) is empty. -/
def destroy (st : Hypervisor) (inst : Instance)
    (pauseRes stopRes : Option IncusError)
    (usedByAfter : String → List String) : RunResult Unit :=
  let aclsToRemove := associatedACLs st.acls inst.name
  let tr0 : List Event := [Event.computeACLs (aclsToRemove.map ACL.name)]
  match removeForwardPort st inst with
  | Except.error e => ⟨st, tr0, Except.error e⟩
  | Except.ok (st1, evF) =>
    let tr1 := tr0 ++ evF ++ [Event.pause inst.name]
    if pauseSwallows pauseRes then
      let tr2 := tr1 ++ [Event.stop inst.name]
      if stopSwallows stopRes then
        let st2 : Hypervisor :=
          { st1 with instances := st1.instances.filter (fun i => i.name != inst.name) }
        let tr3 := tr2 ++ [Event.deleteInstance inst.name]
        let deletable := aclsToRemove.filter (fun a => (usedByAfter a.name).isEmpty)
        let st3 : Hypervisor :=
          { st2 with acls := st2.acls.filter (fun a =>
              !((deletable.map ACL.name).contains a.name)) }
        ⟨st3, tr3 ++ deletable.map (fun a => Event.deleteACL a.name), Except.ok ()⟩
      else ⟨st1, tr2, Except.error "stop failed"⟩
    else ⟨st1, tr1, Except.error "pause failed"⟩

/-! ## deploy (src/deploy.py lines 144-175) -/

def instanceExists (st : Hypervisor) (name : String) : Bool :=
  st.instances.any (fun i => i.name == name)

def getInstance (st : Hypervisor) (name : String) : Option Instance :=
  st.instances.find? (fun i => i.name == name)

/-- The hypervisor calls of the provisioning step of `deploy`: the clone
branch copies then starts, the launch branch launches (network attached at
creation). -/
def createTrace (name : String) (isClone : Bool) : List Event :=
  if isClone then [Event.copyInstance name, Event.startInstance name]
  else [Event.launchInstance name]

/-- `deploy`: on a name conflict fail without force, destroy-first with
force; then provision. The instance object returned by the copy/launch
collaborator call is the `newInst` oracle parameter. -/
def deploy (st : Hypervisor) (force : Bool) (name : String) (isClone : Bool)
    (newInst : Instance) (pauseRes stopRes : Option IncusError)
    (usedByAfter : String → List String) : RunResult Unit :=
  if instanceExists st name then
    if force then
      match getInstance st name with
      | none => ⟨st, [], Except.error "unreachable"⟩
      | some inst =>
        let d := destroy st inst pauseRes stopRes usedByAfter
        match d.outcome with
        | Except.error e => ⟨d.state, d.trace, Except.error e⟩
        | Except.ok _ =>
          ⟨{ d.state with instances := d.state.instances ++ [newInst] },
           d.trace ++ createTrace name isClone, Except.ok ()⟩
    else
      ⟨st, [], Except.error "Instance already exists. Use --force if you want to redeploy."⟩
  else
    ⟨{ st with instances := st.instances ++ [newInst] },
     createTrace name isClone, Except.ok ()⟩

/-! ## Network reconciliation (src/deploy.py lines 620-654) -/

/-- The fields of `Config.Network` that the reconciliation branch reads. -/
structure NetworkSpec where
  name : String
  type : Option String
  description : Option String
  config : Option (List (String × String))
  action : String
deriving DecidableEq, Repr

/-- `project.networks.create(...)` for a fresh network built from the spec. -/
def mkNetworkFromSpec (spec : NetworkSpec) : Network :=
  { name := spec.name, description := spec.description,
    config := spec.config.getD [], forwards := [] }

/-- The `if(conf.network)` reconciliation block of `__main__`: dispatch on
the action, with create/update/skip against existing state and a
lookup-only fallback for any other action value. -/
def reconcileNetwork (networks : List Network) (spec : NetworkSpec) :
    Except String (List Network × Network × List Event) :=
  if spec.action == "create" || spec.action == "update" || spec.action == "skip" then
    match networks.find? (fun n => n.name == spec.name) with
    | some net =>
      if spec.action != "skip" && spec.action == "create" then
        Except.error ("Network already exists: " ++ spec.name)
      else if spec.action == "skip" then
        Except.ok (networks, net, [])
      else if spec.action == "update" then
        let descDiffers := net.description != spec.description
        let net1 := if descDiffers then { net with description := spec.description } else net
        match spec.config with
        | none => Except.error "TypeError: NoneType is not a mapping"
        | some cfgNew =>
          let net2 := { net1 with config := dictMerge net1.config cfgNew }
          Except.ok (replaceNetwork networks net2, net2,
            if descDiffers then [Event.setDescription spec.name] else [])
      else Except.ok (networks, net, [])
    | none =>
      match spec.type with
      | none => Except.error "Type must be specified when creating a network."
      | some t =>
        if t.isEmpty then Except.error "Type must be specified when creating a network."
        else
          let newNet := mkNetworkFromSpec spec
          Except.ok (networks ++ [newNet], newNet, [])
  else
    match networks.find? (fun n => n.name == spec.name) with
    | none => Except.error ("Network was not found: " ++ spec.name)
    | some net => Except.ok (networks, net, [])

/-! ## waitForIPAddresses (src/deploy.py lines 319-352)

The enabled flags (`ipv4Enabled`/`ipv6Enabled`) and the declared-subnet
membership tests `ip_address(a) in subnet` are inputs here: the flags are
the booleans the code computes from suppression and from the network's
declared `ipv4.address`/`ipv6.address` config, and `in4`/`in6` are the
membership predicates of the two declared subnets. The unbounded `while`
loop is modelled over the (arbitrary) sequence of live address snapshots it
would observe, returning the index of the poll at which it exits, if any. -/

/-- The loop state: the persistent `ipv4`/`ipv6` variables. -/
structure AddrState where
  ipv4 : Option String
  ipv6 : Option String
deriving DecidableEq, Repr

/-- The condition under which one address makes the enabled IPv4 family
satisfied: family `inet`, global scope, inside the declared subnet. -/
def addrSatisfies4 (in4 : String → Bool) (a : IfaceAddress) : Bool :=
  a.family == "inet" && a.scope == "global" && in4 a.address

/-- Same for IPv6. -/
def addrSatisfies6 (in6 : String → Bool) (a : IfaceAddress) : Bool :=
  a.family == "inet6" && a.scope == "global" && in6 a.address

/-- The exit condition of both the inner and the outer loop. -/
def waitExit (ipv4En ipv6En : Bool) (s : AddrState) : Bool :=
  (!ipv4En || s.ipv4.isSome) && (!ipv6En || s.ipv6.isSome)

/-- One pass of the `for address in ...` loop, with its early break. -/
def pollPass (ipv4En ipv6En : Bool) (in4 in6 : String → Bool) :
    AddrState → List IfaceAddress → AddrState
  | s, [] => s
  | s, a :: rest =>
    let s1 := if ipv4En && addrSatisfies4 in4 a then { s with ipv4 := some a.address } else s
    let s2 := if ipv6En && addrSatisfies6 in6 a then { s1 with ipv6 := some a.address } else s1
    if waitExit ipv4En ipv6En s2 then s2
    else pollPass ipv4En ipv6En in4 in6 s2 rest

/-- The outer `while(True)` loop over successive address snapshots: `some i`
means the loop exits after polling snapshot `i`; `none` means it is still
blocked after consuming the whole observed sequence. -/
def waitLoop (ipv4En ipv6En : Bool) (in4 in6 : String → Bool)
    (s : AddrState) : List (List IfaceAddress) → Option Nat
  | [] => none
  | addrs :: rest =>
    let s1 := pollPass ipv4En ipv6En in4 in6 s addrs
    if waitExit ipv4En ipv6En s1 then some 0
    else (waitLoop ipv4En ipv6En in4 in6 s1 rest).map (fun n => n + 1)

/-- `waitForIPAddresses` with its running-status precondition. -/
def waitForIPAddresses (inst : Instance) (ipv4En ipv6En : Bool)
    (in4 in6 : String → Bool) (snaps : List (List IfaceAddress)) :
    Except String (Option Nat) :=
  if !(statusIsRunning inst.status) then
    Except.error ("Instance is not running: " ++ inst.status)
  else
    Except.ok (waitLoop ipv4En ipv6En in4 in6 ⟨none, none⟩ snaps)

/-- First index of a list of snapshots satisfying a predicate (the position
at which a poll loop keyed on that predicate would exit). -/
def firstSatIdx {α : Type} (p : α → Bool) : List α → Option Nat
  | [] => none
  | x :: xs => if p x then some 0 else (firstSatIdx p xs).map (fun n => n + 1)

/-! ## Config validation (src/deploy.py lines 380-483) -/

/-- `Config.Launch` after validation (image name/remote checked by pyincus). -/
structure LaunchSpec where
  imageName : String
  imageRemote : String
  config : Option (List (String × String))
  isVM : Bool
deriving DecidableEq, Repr

/-- `Config.Copy` after validation. -/
structure CopySpec where
  name : String
  remote : String
  project : Option String
  config : Option (List (String × String))
deriving DecidableEq, Repr

structure ConfigModel where
  name : String
  remote : String
  project : String
  launch : Option LaunchSpec
  copy : Option CopySpec
deriving DecidableEq, Repr

/-- `Config.__init__`: the provisioning-source exclusivity check. The only
rejection is `launch and copy` both present; pyincus object-format
validation of name/remote/project is the external collaborator. -/
def configInit (name remote project : String) (launch : Option LaunchSpec)
    (copy : Option CopySpec) : Except String ConfigModel :=
  if launch.isSome && copy.isSome then
    Except.error "There can only be one of them: launch and copy"
  else
    Except.ok { name := name, remote := remote, project := project,
                launch := launch, copy := copy }

/-- The `try/except` around config construction in `__main__` maps a raised
exception to `printHelp` plus `sys.exit(1)`, success to continuing (0). -/
def configLoadExitCode (r : Except String ConfigModel) : Nat :=
  match r with
  | Except.error _ => 1
  | Except.ok _ => 0

/-! ## Purge branch of `__main__` (src/deploy.py lines 501-527) -/

/-- The `--purge` branch: argument checks, remote/project/instance lookup,
`destroy`, then the unconditional `sys.exit(1)` on line 527. Returns the
process exit code together with the final state and trace. -/
def purgeMain (remoteArg projectArg : Option String) (instName : String)
    (remotes : List String) (projects : List String) (st : Hypervisor)
    (pauseRes stopRes : Option IncusError)
    (usedByAfter : String → List String) : Nat × Hypervisor × List Event :=
  match remoteArg, projectArg with
  | some r, some p =>
    if !(remotes.contains r) then (1, st, [])
    else if !(projects.contains p) then (1, st, [])
    else if !(instanceExists st instName) then (1, st, [])
    else
      match getInstance st instName with
      | none => (1, st, [])
      | some inst =>
        let d := destroy st inst pauseRes stopRes usedByAfter
        match d.outcome with
        | Except.error _ => (1, d.state, d.trace)
        | Except.ok _ => (1, d.state, d.trace)
  | _, _ => (1, st, [])

/-! ## Static IPv4 validation and assignment
(src/deploy.py lines 286-317 and 433-447) -/

/-- Split a character list on the dot separator (Python `s.split(".")`). -/
def splitOnDot : List Char → List (List Char)
  | [] => [[]]
  | c :: rest =>
    let r := splitOnDot rest
    if c == '.' then [] :: r
    else
      match r with
      | [] => [[c]]
      | x :: xs => (c :: x) :: xs

/-- Accumulating decimal parser over characters. -/
def decNatAux : List Char → Nat → Option Nat
  | [], acc => some acc
  | c :: cs, acc =>
    if c.isDigit then decNatAux cs (acc * 10 + (c.toNat - 48)) else none

/-- Decimal value of a non-empty all-digit character list. -/
def decNat? (cs : List Char) : Option Nat :=
  match cs with
  | [] => none
  | _ => decNatAux cs 0

/-- One octet of a dotted-quad literal, as `ipaddress.IPv4Address` accepts
it: decimal digits, value at most 255, no leading zero. -/
def validOctet (cs : List Char) : Bool :=
  match decNat? cs with
  | none => false
  | some n => n ≤ 255 && (cs == ['0'] || cs.head? != some '0')

/-- `ipaddress.IPv4Address` acceptance of a string literal. -/
def isValidIPv4 (s : String) : Bool :=
  match splitOnDot s.data with
  | [a, b, c, d] => validOctet a && validOctet b && validOctet c && validOctet d
  | _ => false

/-- Model of the external `pyincus.utils.isFalse` helper on a string. -/
def isFalse (s : String) : Bool :=
  strLowerEq s.data "false".data

/-- The `ipv4` check of `Config.Network.__init__`: when the value is truthy
and not the "false" sentinel, it must parse as an IPv4 literal; nothing
else about it is checked. -/
def networkSpecValidateIPv4 (ipv4 : Option String) : Except String Unit :=
  match ipv4 with
  | none => Except.ok ()
  | some s =>
    if !s.isEmpty && !(isFalse s) then
      if isValidIPv4 s then Except.ok ()
      else Except.error "ipv4 must be a valid IPv4 address."
    else Except.ok ()

/-- Dotted-quad literal to its 32-bit value. -/
def ipv4ToNat (s : String) : Option Nat :=
  match splitOnDot s.data with
  | [a, b, c, d] =>
    match decNat? a, decNat? b, decNat? c, decNat? d with
    | some x, some y, some z, some w =>
      if x ≤ 255 && y ≤ 255 && z ≤ 255 && w ≤ 255 then
        some (((x * 256 + y) * 256 + z) * 256 + w)
      else none
    | _, _, _, _ => none
  | _ => none

/-- CIDR membership of an IPv4 literal in the subnet `netBase/plen`
(the semantics of Python `ip_address(a) in ip_network(..., strict=False)`
for IPv4). -/
def inCIDR4 (addr netBase : String) (plen : Nat) : Bool :=
  match ipv4ToNat addr, ipv4ToNat netBase with
  | some a, some n => a / 2 ^ (32 - plen) == n / 2 ^ (32 - plen)
  | _, _ => false

/-- First global-scope IPv4 of the live interface state (the snapshot loop
of `setStaticIP` when no explicit IPv4 is given). -/
def firstGlobal4 (addrs : List IfaceAddress) : Option String :=
  (addrs.find? (fun a => a.family == "inet" && a.scope == "global")).map
    (fun a => a.address)

/-- Same for IPv6. -/
def firstGlobal6 (addrs : List IfaceAddress) : Option String :=
  (addrs.find? (fun a => a.family == "inet6" && a.scope == "global")).map
    (fun a => a.address)

/-- `setStaticIP`: seed the eth0 device override from the expanded devices
if absent, pin IPv4 (explicit value or snapshot), pin IPv6 the same way but
only under a truthy `ipv6.dhcp.stateful` network config, and persist the
device map. `netConfig` is the config of the network resolved from
`instance.expandedDevices["eth0"]["network"]`. -/
def setStaticIP (inst : Instance) (netConfig : List (String × String))
    (ipv4 ipv6 : Option String) : Except String Devices :=
  let devices := inst.devices
  match (if (dictLookup devices "eth0").isSome then some devices
         else (dictLookup inst.expandedDevices "eth0").map
           (fun e => devices ++ [("eth0", e)])) with
  | none => Except.error "KeyError: eth0"
  | some devices =>
    let eth0 := (dictLookup devices "eth0").getD []
    let eth0 :=
      if pyTruthyStr ipv4 then dictInsert eth0 "ipv4.address" (ipv4.getD "")
      else
        match firstGlobal4 inst.stateAddresses with
        | some a => dictInsert eth0 "ipv4.address" a
        | none => eth0
    let eth0 :=
      if pyTruthyStr (dictLookup netConfig "ipv6.dhcp.stateful") then
        if pyTruthyStr ipv6 then dictInsert eth0 "ipv6.address" (ipv6.getD "")
        else
          match firstGlobal6 inst.stateAddresses with
          | some a => dictInsert eth0 "ipv6.address" a
          | none => eth0
      else eth0
    Except.ok (dictInsert devices "eth0" eth0)

/-! ## setForwardsPorts (src/deploy.py lines 258-284) -/

/-- A `Config.Network.Forward` entry. -/
structure ForwardSpecEntry where
  source : String
  destination : String
  protocol : String
deriving DecidableEq, Repr

/-- Python `targetAddress4 if targetAddress4 else targetAddress6`
(truthiness: `None` and `""` fall through). -/
def pyOrElse (a b : Option String) : Option String :=
  match a with
  | some s => if s.isEmpty then b else some s
  | none => b

/-- An address entry the first-global scan of `setForwardsPorts` picks up. -/
def isGlobalAddr (a : IfaceAddress) : Bool :=
  (a.family == "inet" || a.family == "inet6") && a.scope == "global"

/-- `setForwardsPorts`: scan the live eth0 addresses, stopping at the first
global-scope address of either family; fail if none; choose the IPv4 slot
if truthy else the IPv6 slot; then append one port mapping per forward spec
onto the pre-existing forward resource of the given listen address. -/
def setForwardsPorts (st : Hypervisor) (inst : Instance)
    (netName listenAddress : String) (forwards : List ForwardSpecEntry) :
    Except String (Hypervisor × String × List ForwardPort) :=
  let t := scanFirstGlobal inst.stateAddresses
  if t.1.isNone && t.2.isNone then
    Except.error "Failed to find IPv4 or IPv6 addresses for instance."
  else
    let targetAddress := (pyOrElse t.1 t.2).getD ""
    match st.networks.find? (fun n => n.name == netName) with
    | none => Except.error ("Network was not found: " ++ netName)
    | some net =>
      match net.forwards.find? (fun f => f.listenAddress == listenAddress) with
      | none => Except.error ("Forward was not found: " ++ listenAddress)
      | some fwd =>
        let newPorts := forwards.map (fun f =>
          { protocol := f.protocol, listenPort := f.source,
            targetAddress := targetAddress, targetPort := f.destination : ForwardPort })
        let fwd1 := { fwd with ports := fwd.ports ++ newPorts }
        let fwds1 := net.forwards.map
          (fun f => if f.listenAddress == listenAddress then fwd1 else f)
        let net1 := { net with forwards := fwds1 }
        Except.ok
          ({ st with networks := replaceNetwork st.networks net1 },
           targetAddress, newPorts)

/-! ## Association-list lemmas -/

theorem dictLookup_nil {α : Type} (k : String) :
    dictLookup ([] : List (String × α)) k = none := rfl

theorem dictLookup_cons {α : Type} (x : String × α) (l : List (String × α))
    (k : String) :
    dictLookup (x :: l) k = if x.1 == k then some x.2 else dictLookup l k := by
  simp only [dictLookup, List.find?_cons]
  cases h : x.1 == k <;> simp [h]

theorem dictLookup_append {α : Type} (a b : List (String × α)) (k : String) :
    dictLookup (a ++ b) k =
      match dictLookup a k with
      | some v => some v
      | none => dictLookup b k := by
  induction a with
  | nil => simp [dictLookup_nil]
  | cons x a ih =>
    rw [List.cons_append, dictLookup_cons, dictLookup_cons]
    cases h : x.1 == k <;> simp [ih]

theorem dictLookup_map_overwrite {α : Type} (d : List (String × α)) (k : String)
    (v : α) :
    dictLookup (d.map (fun kv => if kv.1 == k then (k, v) else kv)) k
      = if (dictLookup d k).isSome then some v else none := by
  induction d with
  | nil => simp [dictLookup_nil]
  | cons x d ih =>
    rw [List.map_cons, dictLookup_cons, dictLookup_cons]
    cases h : x.1 == k
    · simp [h]
      simpa using ih
    · simp [h]

theorem dictLookup_dictInsert_self {α : Type} (d : List (String × α))
    (k : String) (v : α) :
    dictLookup (dictInsert d k v) k = some v := by
  unfold dictInsert
  cases h : (dictLookup d k).isSome
  · rw [if_neg (by simp [h]), dictLookup_append]
    rw [show dictLookup d k = none from by
      cases hd : dictLookup d k <;> simp_all]
    rw [dictLookup_cons]
    simp
  · rw [if_pos (by simp [h]), dictLookup_map_overwrite, if_pos (by simp [h])]

theorem dictLookup_map_overwrite_ne {α : Type} (d : List (String × α))
    (k k1 : String) (v : α) (h : k ≠ k1) :
    dictLookup (d.map (fun kv => if kv.1 == k then (k, v) else kv)) k1
      = dictLookup d k1 := by
  induction d with
  | nil => rfl
  | cons x d ih =>
    rw [List.map_cons, dictLookup_cons, dictLookup_cons]
    cases hx : x.1 == k
    · have ih2 := ih
      simp at ih2
      simp [hx, ih2]
    · have hx1 : x.1 = k := by simpa using hx
      have hk1 : (k == k1) = false := by
        cases hkk : k == k1
        · rfl
        · exact absurd (by simpa using hkk) h
      simp [hx1, hk1]
      simpa using ih

theorem dictLookup_dictInsert_ne {α : Type} (d : List (String × α))
    (k k1 : String) (v : α) (h : (k1 == k) = false) :
    dictLookup (dictInsert d k v) k1 = dictLookup d k1 := by
  have hne : k ≠ k1 := fun he => by simp [he] at h
  unfold dictInsert
  cases hs : (dictLookup d k).isSome
  · rw [if_neg (by simp [hs]), dictLookup_append]
    rw [dictLookup_cons]
    have hk : (k == k1) = false := by
      cases hkk : k == k1
      · rfl
      · exact absurd (by simpa using hkk) hne
    simp only [hk, Bool.false_eq_true, if_false, dictLookup_nil]
    cases hd : dictLookup d k1 <;> simp
  · rw [if_pos (by simp [hs])]
    exact dictLookup_map_overwrite_ne d k k1 v hne

theorem dictLookup_map_merge {α : Type} (old new : List (String × α)) (k : String) :
    dictLookup (old.map (fun kv => (kv.1, (dictLookup new kv.1).getD kv.2))) k
      = (dictLookup old k).map (fun v => (dictLookup new k).getD v) := by
  induction old with
  | nil => simp [dictLookup_nil]
  | cons x old ih =>
    rw [List.map_cons, dictLookup_cons, dictLookup_cons]
    cases h : x.1 == k
    · simp [ih]
    · have : x.1 = k := by simpa using h
      subst this
      simp

theorem dictLookup_filter_isNone {α : Type} (old new : List (String × α))
    (k : String) :
    dictLookup (new.filter (fun kv => (dictLookup old kv.1).isNone)) k
      = if (dictLookup old k).isNone then dictLookup new k else none := by
  induction new with
  | nil => simp [dictLookup_nil]
  | cons x new ih =>
    cases hx : (dictLookup old x.1).isNone
    · rw [List.filter_cons_of_neg (by simp [hx]), dictLookup_cons, ih]
      cases h : x.1 == k
      · rfl
      · have : x.1 = k := by simpa using h
        subst this
        simp [hx]
    · rw [List.filter_cons_of_pos (by simp [hx]), dictLookup_cons, dictLookup_cons]
      cases h : x.1 == k
      · simp [h, ih]
      · have : x.1 = k := by simpa using h
        subst this
        simp [h, hx]

/-- `new` overlaid on `old`: the first lookup wins. -/
def overlayLookup {α : Type} (new old : Option α) : Option α :=
  match new with
  | some v => some v
  | none => old

/-- The lookup semantics of the Python merge `\x7b**old, **new\x7d`: `new` wins,
`old` fills in. -/
theorem dictLookup_dictMerge {α : Type} (old new : List (String × α)) (k : String) :
    dictLookup (dictMerge old new) k
      = overlayLookup (dictLookup new k) (dictLookup old k) := by
  unfold overlayLookup
  unfold dictMerge
  rw [dictLookup_append, dictLookup_map_merge, dictLookup_filter_isNone]
  cases ho : dictLookup old k <;> cases hn : dictLookup new k <;> simp

/-! ## Shared concrete teardown scenario (C1-C4 witnesses) -/

/-- A forward port targeting the instance to be destroyed. -/
def pA : ForwardPort := ⟨"tcp", "80", "10.0.0.7", "80"⟩

/-- A forward port targeting another instance on the same network. -/
def pB : ForwardPort := ⟨"tcp", "81", "10.0.0.9", "81"⟩

/-- The forward resource of the scenario network. -/
def fwdW : NetForward := ⟨"1.2.3.4", [pA, pB]⟩

/-- The scenario network. -/
def netW : Network := ⟨"net0", some "d", [], [fwdW]⟩

/-- An ACL used only by the instance under teardown. -/
def aclW1 : ACL := ⟨"only-web", ["/1.0/instances/web"]⟩

/-- An ACL shared between the instance under teardown and another one. -/
def aclW2 : ACL := ⟨"shared", ["/1.0/instances/web", "/1.0/instances/db"]⟩

/-- The stopped instance under teardown, with a static address override. -/
def instW : Instance :=
  ⟨"web", "stopped",
   [("eth0", [("ipv4.address", "10.0.0.7"), ("network", "net0")])],
   [("eth0", [("network", "net0")])], []⟩

/-- The scenario hypervisor state. -/
def stW : Hypervisor := ⟨[instW], [netW], [aclW1, aclW2]⟩

/-- The instance handle the provisioning collaborator returns. -/
def newInstW : Instance := ⟨"web", "running", [], [], []⟩

/-- The network after the scenario teardown removed the matching port. -/
def netWAfter : Network := ⟨"net0", some "d", [], [⟨"1.2.3.4", [pB]⟩]⟩

/-- The hypervisor state after the scenario force-redeploy. -/
def stWAfter : Hypervisor := ⟨[newInstW], [netWAfter], [aclW2]⟩

/-- The hypervisor calls of the scenario teardown, in order. -/
def traceW : List Event :=
  [Event.computeACLs ["only-web"], Event.removedPort "80", Event.pause "web",
   Event.stop "web", Event.deleteInstance "web", Event.deleteACL "only-web"]

/-! ## C1: deploy against an existing instance name -/

/-- C1: when the requested name exists, deploy without force aborts with
the conflict error, leaving the state untouched and making no hypervisor
call; with force it runs the full teardown first and only then issues the
copy-or-launch calls, and a teardown abort prevents any creation call. -/
theorem C1_deploy_conflict (st : Hypervisor) (nm : String) (isClone : Bool)
    (newInst : Instance) (pauseRes stopRes : Option IncusError)
    (usedByAfter : String → List String)
    (hex : instanceExists st nm = true) :
    (deploy st false nm isClone newInst pauseRes stopRes usedByAfter
      = ⟨st, [],
         Except.error "Instance already exists. Use --force if you want to redeploy."⟩)
    ∧ (∀ inst, getInstance st nm = some inst →
        ((destroy st inst pauseRes stopRes usedByAfter).outcome = Except.ok () →
          deploy st true nm isClone newInst pauseRes stopRes usedByAfter
            = ⟨{ (destroy st inst pauseRes stopRes usedByAfter).state with
                  instances :=
                    (destroy st inst pauseRes stopRes usedByAfter).state.instances
                      ++ [newInst] },
               (destroy st inst pauseRes stopRes usedByAfter).trace
                 ++ createTrace nm isClone,
               Except.ok ()⟩)
        ∧ (∀ e, (destroy st inst pauseRes stopRes usedByAfter).outcome
              = Except.error e →
            deploy st true nm isClone newInst pauseRes stopRes usedByAfter
              = ⟨(destroy st inst pauseRes stopRes usedByAfter).state,
                 (destroy st inst pauseRes stopRes usedByAfter).trace,
                 Except.error e⟩)) := by
  refine ⟨?_, fun inst hins => ⟨fun hok => ?_, fun e herr => ?_⟩⟩
  · simp [deploy, hex]
  · simp [deploy, hex, hins, hok]
  · simp [deploy, hex, hins, herr]

/-- C1 (witness): the conflict theorem on the concrete scenario; without
force the run fails with no call, with force the full teardown trace
precedes the launch call. -/
theorem C1_deploy_conflict_witness :
    (deploy stW false "web" false newInstW (some IncusError.instanceIsNotRunning)
        (some IncusError.instanceIsAlreadyStopped) (fun _ => [])
      = ⟨stW, [],
         Except.error "Instance already exists. Use --force if you want to redeploy."⟩)
    ∧ (deploy stW true "web" false newInstW (some IncusError.instanceIsNotRunning)
        (some IncusError.instanceIsAlreadyStopped) (fun _ => [])
      = ⟨stWAfter, traceW ++ [Event.launchInstance "web"], Except.ok ()⟩) := by
  have h := C1_deploy_conflict stW "web" false newInstW
    (some IncusError.instanceIsNotRunning) (some IncusError.instanceIsAlreadyStopped)
    (fun _ => []) rfl
  refine ⟨h.1, ?_⟩
  have h2 := (h.2 instW rfl).1 rfl
  rw [h2]
  rfl

/-! ## C2: ordered teardown with idempotent pause/stop -/

/-- C2: teardown computes the uniquely-referencing ACL set and removes the
matching forward ports before pause; then pause, stop and the unconditional
delete follow in order, with exactly the not-running pause error and the
already-stopped / not-running stop errors swallowed; each precomputed ACL
is deleted afterwards only if its live `usedBy` is then empty; any other
pause/stop error aborts the run at that point. -/
theorem C2_destroy_order (st : Hypervisor) (inst : Instance)
    (pauseRes stopRes : Option IncusError) (usedByAfter : String → List String)
    (st1 : Hypervisor) (evF : List Event)
    (hF : removeForwardPort st inst = Except.ok (st1, evF)) :
    (pauseSwallows pauseRes = true → stopSwallows stopRes = true →
      destroy st inst pauseRes stopRes usedByAfter
        = ⟨{ instances := st1.instances.filter (fun i => i.name != inst.name),
             networks := st1.networks,
             acls := st1.acls.filter (fun a =>
               !((((associatedACLs st.acls inst.name).filter
                    (fun a2 => (usedByAfter a2.name).isEmpty)).map ACL.name).contains
                  a.name)) },
           Event.computeACLs ((associatedACLs st.acls inst.name).map ACL.name)
             :: evF
             ++ [Event.pause inst.name, Event.stop inst.name,
                 Event.deleteInstance inst.name]
             ++ ((associatedACLs st.acls inst.name).filter
                  (fun a => (usedByAfter a.name).isEmpty)).map
                 (fun a => Event.deleteACL a.name),
           Except.ok ()⟩)
    ∧ (pauseSwallows pauseRes = false →
        destroy st inst pauseRes stopRes usedByAfter
          = ⟨st1,
             Event.computeACLs ((associatedACLs st.acls inst.name).map ACL.name)
               :: evF ++ [Event.pause inst.name],
             Except.error "pause failed"⟩)
    ∧ (pauseSwallows pauseRes = true → stopSwallows stopRes = false →
        destroy st inst pauseRes stopRes usedByAfter
          = ⟨st1,
             Event.computeACLs ((associatedACLs st.acls inst.name).map ACL.name)
               :: evF ++ [Event.pause inst.name, Event.stop inst.name],
             Except.error "stop failed"⟩)
    ∧ pauseSwallows none = true
    ∧ pauseSwallows (some IncusError.instanceIsNotRunning) = true
    ∧ pauseSwallows (some IncusError.instanceIsAlreadyStopped) = false
    ∧ (∀ m, pauseSwallows (some (IncusError.other m)) = false)
    ∧ stopSwallows none = true
    ∧ stopSwallows (some IncusError.instanceIsNotRunning) = true
    ∧ stopSwallows (some IncusError.instanceIsAlreadyStopped) = true
    ∧ (∀ m, stopSwallows (some (IncusError.other m)) = false) := by
  refine ⟨fun h1 h2 => ?_, fun h1 => ?_, fun h1 h2 => ?_,
    rfl, rfl, rfl, fun m => rfl, rfl, rfl, rfl, fun m => rfl⟩
  · simp [destroy, hF, h1, h2]
  · simp [destroy, hF, h1]
  · simp [destroy, hF, h1, h2]

/-- C2 (witness): the ordering theorem on the concrete scenario, with the
swallowed pause (not running) and stop (already stopped) outcomes. -/
theorem C2_destroy_order_witness :
    destroy stW instW (some IncusError.instanceIsNotRunning)
        (some IncusError.instanceIsAlreadyStopped) (fun _ => [])
      = ⟨⟨[], [netWAfter], [aclW2]⟩, traceW, Except.ok ()⟩ := by
  have h := (C2_destroy_order stW instW (some IncusError.instanceIsNotRunning)
      (some IncusError.instanceIsAlreadyStopped) (fun _ => [])
      ⟨[instW], [netWAfter], [aclW1, aclW2]⟩ [Event.removedPort "80"] rfl).1 rfl rfl
  rw [h]
  rfl

/-! ## C3: shared ACLs survive teardown -/

theorem removePortsStep_fold_events (t4 t6 : Option String) (l : List ForwardPort)
    (acc : NetForward × List Event) :
    ∀ e, e ∈ (l.foldl (removePortsStep t4 t6) acc).2 →
      e ∈ acc.2 ∨ ∃ lp, e = Event.removedPort lp := by
  induction l generalizing acc with
  | nil => intro e he; exact Or.inl he
  | cons p l ih =>
    intro e he
    rw [List.foldl_cons] at he
    rcases ih (removePortsStep t4 t6 acc p) e he with h | h
    · cases hm : portMatches t4 t6 p
      · simp only [removePortsStep, hm, Bool.false_eq_true, if_false] at h
        exact Or.inl h
      · simp only [removePortsStep, hm, if_true] at h
        rw [List.mem_append] at h
        rcases h with h | h
        · exact Or.inl h
        · exact Or.inr ⟨p.listenPort, by simpa using h⟩
    · exact Or.inr h

theorem outerFold_events (t4 t6 : Option String) (fl : List NetForward)
    (acc : List NetForward × List Event) :
    ∀ e, e ∈ (fl.foldl (fun acc fwd =>
        let rf := removeMatchingPorts t4 t6 fwd
        (acc.1 ++ [rf.1], acc.2 ++ rf.2)) acc).2 →
      e ∈ acc.2 ∨ ∃ lp, e = Event.removedPort lp := by
  induction fl generalizing acc with
  | nil => intro e he; exact Or.inl he
  | cons fwd fl ih =>
    intro e he
    rw [List.foldl_cons] at he
    rcases ih _ e he with h | h
    · simp only [List.mem_append] at h
      rcases h with h | h
      · exact Or.inl h
      · exact Or.inr (by
          rcases removePortsStep_fold_events t4 t6 fwd.ports (fwd, []) e h with h2 | h2
          · simp at h2
          · exact h2)
    · exact Or.inr h

/-- The port-removal events of `removeForwardPort` are all `removedPort`. -/
theorem removeForwardPort_events (st : Hypervisor) (inst : Instance)
    (st1 : Hypervisor) (evF : List Event)
    (h : removeForwardPort st inst = Except.ok (st1, evF)) :
    ∀ e, e ∈ evF → ∃ lp, e = Event.removedPort lp := by
  simp only [removeForwardPort] at h
  cases ht : ((discoverTargets inst).1.isNone && (discoverTargets inst).2.isNone)
  · simp only [ht, Bool.false_eq_true, if_false] at h
    split at h
    · exact absurd h (by simp)
    · split at h
      · exact absurd h (by simp)
      · split at h
        · exact absurd h (by simp)
        · simp only [Except.ok.injEq, Prod.mk.injEq] at h
          intro e he
          rw [← h.2] at he
          rcases outerFold_events _ _ _ _ e he with h2 | h2
          · simp at h2
          · exact h2
  · simp only [ht, eq_self_iff_true, if_true, Except.ok.injEq, Prod.mk.injEq] at h
    intro e he
    rw [← h.2] at he
    simp at he

/-- The hypervisor-call trace of `destroy`, by case on the collaborator
outcomes. -/
theorem destroy_trace_characterization (st : Hypervisor) (inst : Instance)
    (pauseRes stopRes : Option IncusError) (usedByAfter : String → List String) :
    (destroy st inst pauseRes stopRes usedByAfter).trace
      = Event.computeACLs ((associatedACLs st.acls inst.name).map ACL.name)
          :: (match removeForwardPort st inst with
              | Except.error _ => []
              | Except.ok (_, evF) =>
                evF ++ [Event.pause inst.name]
                  ++ (if pauseSwallows pauseRes then
                        [Event.stop inst.name]
                          ++ (if stopSwallows stopRes then
                                [Event.deleteInstance inst.name]
                                  ++ ((associatedACLs st.acls inst.name).filter
                                      (fun a => (usedByAfter a.name).isEmpty)).map
                                      (fun a => Event.deleteACL a.name)
                              else [])
                      else [])) := by
  cases hF : removeForwardPort st inst with
  | error e => simp [destroy, hF]
  | ok res =>
    obtain ⟨st1, evF⟩ := res
    cases h1 : pauseSwallows pauseRes
    · simp [destroy, hF, h1]
    · cases h2 : stopSwallows stopRes
      · simp [destroy, hF, h1, h2]
      · simp [destroy, hF, h1, h2]

/-- C3: during teardown, an ACL whose `usedBy` has two or more entries is
never deleted; a `deleteACL` call happens only for an ACL that had exactly
one `usedBy` entry and whose `usedBy`, re-read after the instance deletion,
is empty. -/
theorem C3_shared_acl_survives (st : Hypervisor) (inst : Instance)
    (pauseRes stopRes : Option IncusError) (usedByAfter : String → List String)
    (hnd : (st.acls.map ACL.name).Nodup) :
    (∀ acl, acl ∈ st.acls → 2 ≤ acl.usedBy.length →
      Event.deleteACL acl.name ∉ (destroy st inst pauseRes stopRes usedByAfter).trace)
    ∧ (∀ n, Event.deleteACL n ∈ (destroy st inst pauseRes stopRes usedByAfter).trace →
        usedByAfter n = [] ∧ ∃ acl, acl ∈ st.acls ∧ acl.name = n
          ∧ acl.usedBy.length = 1) := by
  have key : ∀ n, Event.deleteACL n ∈ (destroy st inst pauseRes stopRes usedByAfter).trace →
      ∃ a, a ∈ st.acls ∧ a.name = n ∧ a.usedBy.length = 1
        ∧ (usedByAfter a.name).isEmpty = true := by
    intro n hm
    rw [destroy_trace_characterization] at hm
    rw [List.mem_cons] at hm
    rcases hm with hm | hm
    · exact absurd hm (by simp)
    cases hF : removeForwardPort st inst with
    | error e => rw [hF] at hm; simp at hm
    | ok res =>
      obtain ⟨st1, evF⟩ := res
      rw [hF] at hm
      rw [List.mem_append] at hm
      rcases hm with hm | hm
      · rw [List.mem_append] at hm
        rcases hm with hm | hm
        · rcases removeForwardPort_events st inst st1 evF hF _ hm with ⟨lp, hlp⟩
          exact absurd hlp (by simp)
        · simp at hm
      · cases h1 : pauseSwallows pauseRes
        · rw [h1] at hm
          simp at hm
        · rw [h1] at hm
          rw [if_pos (rfl : true = true)] at hm
          rw [List.mem_append] at hm
          rcases hm with hm | hm
          · simp at hm
          · cases h2 : stopSwallows stopRes
            · rw [h2] at hm
              simp at hm
            · rw [h2] at hm
              rw [if_pos (rfl : true = true)] at hm
              rw [List.mem_append] at hm
              rcases hm with hm | hm
              · simp at hm
              · rw [List.mem_map] at hm
                obtain ⟨a, ha, haeq⟩ := hm
                rw [List.mem_filter] at ha
                obtain ⟨ha1, ha2⟩ := ha
                unfold associatedACLs at ha1
                rw [List.mem_filter] at ha1
                obtain ⟨ha3, ha4⟩ := ha1
                rw [Bool.and_eq_true] at ha4
                refine ⟨a, ha3, by simpa using haeq, ?_, ha2⟩
                simpa using ha4.1
  constructor
  · intro acl hacl hlen hm
    obtain ⟨a, ha, haname, halen, _⟩ := key acl.name hm
    have : a = acl := List.inj_on_of_nodup_map hnd ha hacl haname
    rw [this] at halen
    rw [halen] at hlen
    exact absurd hlen (by norm_num)
  · intro n hm
    obtain ⟨a, ha, haname, halen, hae⟩ := key n hm
    refine ⟨?_, a, ha, haname, halen⟩
    rw [← haname]
    exact List.isEmpty_iff.mp hae

/-- C3 (witness): in the concrete scenario the shared ACL (two `usedBy`
entries) is never deleted by the teardown. -/
theorem C3_shared_acl_survives_witness :
    Event.deleteACL "shared" ∉ (destroy stW instW
        (some IncusError.instanceIsNotRunning)
        (some IncusError.instanceIsAlreadyStopped) (fun _ => [])).trace := by
  have h := (C3_shared_acl_survives stW instW (some IncusError.instanceIsNotRunning)
      (some IncusError.instanceIsAlreadyStopped) (fun _ => []) (by decide)).1
    aclW2 (by decide) (by decide)
  exact h

/-! ## C4: forward-port removal is exact -/

/-- The inner removal loop, fully folded: every port whose key coincides
with the key of some matched port of the snapshot is removed. -/
theorem removePortsStep_fold_ports (t4 t6 : Option String) (l : List ForwardPort)
    (A : NetForward) (evs : List Event) :
    (l.foldl (removePortsStep t4 t6) (A, evs)).1
      = ⟨A.listenAddress, A.ports.filter (fun q =>
          !(l.any (fun p => portMatches t4 t6 p && sameKey q p)))⟩ := by
  induction l generalizing A evs with
  | nil => simp
  | cons p l ih =>
    rw [List.foldl_cons]
    cases hm : portMatches t4 t6 p
    · rw [show removePortsStep t4 t6 (A, evs) p = (A, evs) from by
        simp [removePortsStep, hm]]
      rw [ih]
      congr 1
      apply List.filter_congr
      intro q hq
      simp [List.any_cons, hm]
    · rw [show removePortsStep t4 t6 (A, evs) p
          = (⟨A.listenAddress, A.ports.filter (fun q => !(sameKey q p))⟩,
             evs ++ [Event.removedPort p.listenPort]) from by
        simp [removePortsStep, hm, NetForward.removePort, sameKey]]
      rw [ih]
      congr 1
      rw [List.filter_filter]
      apply List.filter_congr
      intro q hq
      cases hsk : sameKey q p <;>
        cases ha : l.any (fun p2 => portMatches t4 t6 p2 && sameKey q p2) <;>
          simp [List.any_cons, hm, hsk, ha]

/-- Under the hypervisor invariant that a forward has at most one port
entry per (protocol, listen port) key, the removal loop keeps exactly the
entries whose target address is not a discovered address. -/
theorem removeMatchingPorts_eq_filter (t4 t6 : Option String) (fwd : NetForward)
    (h : (fwd.ports.map (fun p => (p.protocol, p.listenPort))).Nodup) :
    (removeMatchingPorts t4 t6 fwd).1
      = { fwd with ports := fwd.ports.filter (fun p => !(portMatches t4 t6 p)) } := by
  rw [removeMatchingPorts, removePortsStep_fold_ports]
  congr 1
  apply List.filter_congr
  intro q hq
  have hany : fwd.ports.any (fun p => portMatches t4 t6 p && sameKey q p)
      = portMatches t4 t6 q := by
    cases hmq : portMatches t4 t6 q
    · rw [List.any_eq_false]
      intro p hp hpp
      rw [Bool.and_eq_true] at hpp
      have hk : (fun p2 => (p2.protocol, p2.listenPort)) q
          = (fun p2 => (p2.protocol, p2.listenPort)) p := by
        have := hpp.2
        rw [sameKey, Bool.and_eq_true] at this
        simp only []
        rw [Prod.mk.injEq]
        exact ⟨by simpa using this.1, by simpa using this.2⟩
      have hqe : q = p := List.inj_on_of_nodup_map h hq hp hk
      rw [← hqe] at hpp
      rw [hmq] at hpp
      exact absurd hpp.1 (by simp)
    · rw [List.any_eq_true]
      exact ⟨q, hq, by simp [hmq, sameKey]⟩
  rw [hany]

theorem outerFold_forwards (t4 t6 : Option String) (fl : List NetForward)
    (accL : List NetForward) (accE : List Event) :
    (fl.foldl (fun acc fwd =>
        let rf := removeMatchingPorts t4 t6 fwd
        (acc.1 ++ [rf.1], acc.2 ++ rf.2)) (accL, accE)).1
      = accL ++ fl.map (fun fwd => (removeMatchingPorts t4 t6 fwd).1) := by
  induction fl generalizing accL accE with
  | nil => simp
  | cons fwd fl ih =>
    rw [List.foldl_cons]
    show (List.foldl _ (accL ++ [(removeMatchingPorts t4 t6 fwd).1],
        accE ++ (removeMatchingPorts t4 t6 fwd).2) fl).1 = _
    rw [ih]
    simp

/-- One forward with exactly the ports kept whose target address is not a
discovered address of the instance. -/
def keepOtherTargets (inst : Instance) (fwd : NetForward) : NetForward :=
  { fwd with ports := fwd.ports.filter (fun p =>
      !(portMatches (discoverTargets inst).1 (discoverTargets inst).2 p)) }

/-- The instance's network with every forward, whatever its listen address,
reduced to the ports targeting other addresses. -/
def netWithoutInstancePorts (inst : Instance) (net : Network) : Network :=
  { net with forwards := net.forwards.map (fun fwd => keepOtherTargets inst fwd) }

/-- C4: with the discovered target addresses of the torn-down instance,
`removeForwardPort` rewrites every forward of the instance's network,
whatever its listen address, to keep exactly the port entries whose target
address differs from every discovered address; instances and ACLs are
untouched. -/
theorem C4_forward_removal_exact (st : Hypervisor) (inst : Instance)
    (eth0 : DeviceMap) (netName : String) (net : Network)
    (h5 : ((discoverTargets inst).1.isNone && (discoverTargets inst).2.isNone) = false)
    (h1 : dictLookup inst.expandedDevices "eth0" = some eth0)
    (h2 : dictLookup eth0 "network" = some netName)
    (h3 : st.networks.find? (fun n => n.name == netName) = some net)
    (h4 : ∀ fwd, fwd ∈ net.forwards →
      (fwd.ports.map (fun p => (p.protocol, p.listenPort))).Nodup) :
    ∃ evs, removeForwardPort st inst
      = Except.ok
        ({ st with networks :=
            replaceNetwork st.networks (netWithoutInstancePorts inst net) }, evs) := by
  refine ⟨?_, ?_⟩
  rotate_left
  simp only [removeForwardPort, h5, Bool.false_eq_true, if_false, h1, h2, h3]
  rw [outerFold_forwards]
  rw [List.map_congr_left (fun fwd hf =>
    removeMatchingPorts_eq_filter (discoverTargets inst).1 (discoverTargets inst).2
      fwd (h4 fwd hf))]
  rw [List.nil_append]
  simp only [netWithoutInstancePorts, keepOtherTargets]
  exact Eq.refl _

/-- C4 (witness): in the concrete scenario, the port targeting the
torn-down instance's address is removed and the port targeting the other
instance survives. -/
theorem C4_forward_removal_exact_witness :
    ∃ evs, removeForwardPort stW instW
      = Except.ok (⟨[instW], [netWAfter], [aclW1, aclW2]⟩, evs) := by
  have h4 : ∀ fwd, fwd ∈ netW.forwards →
      (fwd.ports.map (fun p => (p.protocol, p.listenPort))).Nodup := by
    intro fwd hf
    rw [show netW.forwards = [fwdW] from rfl, List.mem_singleton] at hf
    rw [hf]
    decide
  obtain ⟨evs, h⟩ := C4_forward_removal_exact stW instW [("network", "net0")]
    "net0" netW (by decide) rfl rfl rfl h4
  refine ⟨evs, ?_⟩
  rw [h]
  rfl

/-! ## C5: network reconciliation with action=update -/

/-- C5: a network update against an existing network shallow-merges the new
config map into the existing one (new keys overwrite, absent keys are
preserved, as the lookup characterisation states), rewrites the description
only when it differs from the declared one, and on the spec's example
`\x7ba:1,b:2\x7d` merged with `\x7bb:3,c:4\x7d` yields `\x7ba:1,b:3,c:4\x7d`. -/
theorem C5_network_update (networks : List Network) (spec : NetworkSpec)
    (net : Network) (cfgNew : List (String × String))
    (ha : spec.action = "update")
    (hf : networks.find? (fun n => n.name == spec.name) = some net)
    (hc : spec.config = some cfgNew) :
    reconcileNetwork networks spec
      = Except.ok (replaceNetwork networks
            { net with description := spec.description,
                       config := dictMerge net.config cfgNew },
          { net with description := spec.description,
                     config := dictMerge net.config cfgNew },
          if net.description != spec.description then [Event.setDescription spec.name]
          else [])
    ∧ (∀ k, dictLookup (dictMerge net.config cfgNew) k
        = overlayLookup (dictLookup cfgNew k) (dictLookup net.config k))
    ∧ dictMerge [("a", "1"), ("b", "2")] [("b", "3"), ("c", "4")]
        = [("a", "1"), ("b", "3"), ("c", "4")] := by
  refine ⟨?_, fun k => dictLookup_dictMerge net.config cfgNew k, by decide⟩
  by_cases hd : (net.description != spec.description) = true
  · simp [reconcileNetwork, ha, hf, hc, hd]
  · have hd1 : (net.description != spec.description) = false := by
      cases hb : net.description != spec.description
      · rfl
      · exact absurd hb hd
    have hd2 : net.description = spec.description := by
      have := hd1
      simp [bne] at this
      exact this
    simp [reconcileNetwork, ha, hf, hc, hd1, ← hd2]

/-- The existing network of the concrete update scenario. -/
def netC5 : Network :=
  { name := "n0", description := some "d", config := [("a", "1"), ("b", "2")],
    forwards := [] }

/-- The update request of the concrete update scenario. -/
def specC5 : NetworkSpec :=
  { name := "n0", type := none, description := some "d2",
    config := some [("b", "3"), ("c", "4")], action := "update" }

/-- The merged network the concrete update scenario must produce. -/
def netC5Merged : Network :=
  { name := "n0", description := some "d2",
    config := [("a", "1"), ("b", "3"), ("c", "4")], forwards := [] }

/-- C5 (witness): the update theorem applied to the spec's example maps. -/
theorem C5_network_update_witness :
    reconcileNetwork [netC5] specC5
      = Except.ok ([netC5Merged], netC5Merged, [Event.setDescription "n0"]) := by
  have h := (C5_network_update [netC5] specC5 netC5 [("b", "3"), ("c", "4")]
      rfl rfl rfl).1
  rw [h]
  rfl

/-! ## C6: waitForIPAddresses with only IPv4 enabled -/

theorem findIsSome_eq_any {α : Type} (p : α → Bool) (l : List α) :
    (l.find? p).isSome = l.any p := by
  induction l with
  | nil => rfl
  | cons a l ih => cases h : p a <;> simp [List.find?_cons, h, ih]

/-- With IPv6 disabled, one poll pass from the initial state ends in the
state given by the first satisfying IPv4 address, if any. -/
theorem pollPass_v4only (in4 in6 : String → Bool) (l : List IfaceAddress) :
    pollPass true false in4 in6 ⟨none, none⟩ l
      = match l.find? (addrSatisfies4 in4) with
        | some a => ⟨some a.address, none⟩
        | none => ⟨none, none⟩ := by
  induction l with
  | nil => rfl
  | cons a l ih =>
    cases h : addrSatisfies4 in4 a
    · simp [pollPass, h, waitExit, List.find?_cons, ih]
    · simp [pollPass, h, waitExit, List.find?_cons]

theorem waitExit_pollPass_v4only (in4 in6 : String → Bool) (l : List IfaceAddress) :
    waitExit true false (pollPass true false in4 in6 ⟨none, none⟩ l)
      = l.any (addrSatisfies4 in4) := by
  rw [pollPass_v4only, ← findIsSome_eq_any]
  cases l.find? (addrSatisfies4 in4) <;> rfl

theorem pollPass_v4only_none (in4 in6 : String → Bool) (l : List IfaceAddress)
    (h : l.any (addrSatisfies4 in4) = false) :
    pollPass true false in4 in6 ⟨none, none⟩ l = ⟨none, none⟩ := by
  rw [pollPass_v4only]
  cases hf : l.find? (addrSatisfies4 in4)
  · rfl
  · rw [← findIsSome_eq_any, hf] at h
    simp at h

/-- With IPv6 disabled, the outer loop exits exactly at the first snapshot
containing a satisfying IPv4 address. -/
theorem waitLoop_v4only (in4 in6 : String → Bool)
    (snaps : List (List IfaceAddress)) :
    waitLoop true false in4 in6 ⟨none, none⟩ snaps
      = firstSatIdx (fun addrs => addrs.any (addrSatisfies4 in4)) snaps := by
  induction snaps with
  | nil => rfl
  | cons addrs rest ih =>
    cases h : addrs.any (addrSatisfies4 in4)
    · simp [waitLoop, firstSatIdx, h, waitExit_pollPass_v4only,
        pollPass_v4only_none in4 in6 addrs h, ih, waitExit]
    · simp [waitLoop, firstSatIdx, h, waitExit_pollPass_v4only]

theorem firstSatIdx_eq_none {α : Type} (p : α → Bool) (l : List α)
    (h : ∀ x, x ∈ l → p x = false) :
    firstSatIdx p l = none := by
  induction l with
  | nil => rfl
  | cons x l ih =>
    simp [firstSatIdx, h x (by simp), ih (fun y hy => h y (by simp [hy]))]

/-- C6: with only IPv4 enabled, `waitForIPAddresses` returns at the first
poll at which a global-scope IPv4 address inside the declared subnet
appears (IPv6 plays no part); one pass satisfies the wait exactly when such
an address is present; and when every global-scope IPv4 candidate lies
outside the declared subnet the wait never exits. -/
theorem C6_wait_ipv4_only (inst : Instance) (in4 in6 : String → Bool)
    (h : statusIsRunning inst.status = true) :
    (∀ snaps, waitForIPAddresses inst true false in4 in6 snaps
        = Except.ok (firstSatIdx (fun addrs => addrs.any (addrSatisfies4 in4)) snaps))
    ∧ (∀ addrs, waitExit true false (pollPass true false in4 in6 ⟨none, none⟩ addrs) = true
        ↔ ∃ a, a ∈ addrs ∧ a.family = "inet" ∧ a.scope = "global" ∧ in4 a.address = true)
    ∧ (∀ snaps, (∀ addrs, addrs ∈ snaps → ∀ a, a ∈ addrs → addrSatisfies4 in4 a = false)
        → waitForIPAddresses inst true false in4 in6 snaps = Except.ok none) := by
  refine ⟨fun snaps => ?_, fun addrs => ?_, fun snaps hall => ?_⟩
  · simp [waitForIPAddresses, h, waitLoop_v4only]
  · rw [waitExit_pollPass_v4only]
    simp [List.any_eq_true, addrSatisfies4, Bool.and_eq_true, beq_iff_eq, and_assoc]
  · simp only [waitForIPAddresses, h, Bool.not_true, Bool.false_eq_true,
      if_false, waitLoop_v4only]
    rw [firstSatIdx_eq_none]
    intro addrs hs
    rw [List.any_eq_false]
    intro a ha
    simp [hall addrs hs a ha]

/-- The running instance of the concrete wait scenario. -/
def instC6 : Instance :=
  { name := "web", status := "Running", devices := [], expandedDevices := [],
    stateAddresses := [] }

/-- A global IPv6 address observed while waiting. -/
def a6C6 : IfaceAddress := { family := "inet6", scope := "global", address := "fd42::7" }

/-- The global in-subnet IPv4 address that ends the wait. -/
def a4C6 : IfaceAddress := { family := "inet", scope := "global", address := "10.0.0.7" }

/-- C6 (witness): the wait exits at the second poll, the first at which an
in-subnet global IPv4 appears, although IPv6 never gets an address. -/
theorem C6_wait_ipv4_only_witness :
    waitForIPAddresses instC6 true false (fun s => s == "10.0.0.7") (fun _ => false)
        [[a6C6], [a6C6, a4C6]]
      = Except.ok (some 1) := by
  have h := (C6_wait_ipv4_only instC6 (fun s => s == "10.0.0.7") (fun _ => false)
      rfl).1 [[a6C6], [a6C6, a4C6]]
  rw [h]
  rfl

/-! ## C10: forward-port target is the first global-scope address -/

/-- The shared family-aware scan stops at the first address that is
global-scope and of either family, recording it under its family slot. -/
theorem scanFirstGlobal_eq_find (l : List IfaceAddress) :
    scanFirstGlobal l
      = match l.find? isGlobalAddr with
        | none => (none, none)
        | some a =>
          if a.family == "inet" then (some a.address, none)
          else (none, some a.address) := by
  induction l with
  | nil => rfl
  | cons a l ih =>
    cases hf4 : a.family == "inet" <;> cases hf6 : a.family == "inet6" <;>
      cases hs : a.scope == "global" <;>
        simp [scanFirstGlobal, isGlobalAddr, List.find?_cons, hf4, hf6, hs, ih]

/-- C10: when the live eth0 interface has a global-scope address, every
port mapping added by `setForwardsPorts` targets the address of the first
global-scope entry in list order, whichever family it belongs to. -/
theorem C10_forward_target_is_first_global (st : Hypervisor) (inst : Instance)
    (netName listenAddress : String) (forwards : List ForwardSpecEntry)
    (a0 : IfaceAddress) (net : Network) (fwd : NetForward)
    (hfind : inst.stateAddresses.find? isGlobalAddr = some a0)
    (hne : a0.address.isEmpty = false)
    (hnet : st.networks.find? (fun n => n.name == netName) = some net)
    (hfwd : net.forwards.find? (fun f => f.listenAddress == listenAddress) = some fwd) :
    ∃ st1 added, setForwardsPorts st inst netName listenAddress forwards
        = Except.ok (st1, a0.address, added)
      ∧ added = forwards.map (fun f =>
          { protocol := f.protocol, listenPort := f.source,
            targetAddress := a0.address, targetPort := f.destination })
      ∧ ∀ p, p ∈ added → p.targetAddress = a0.address := by
  have hscan : scanFirstGlobal inst.stateAddresses
      = if a0.family == "inet" then (some a0.address, none)
        else (none, some a0.address) := by
    rw [scanFirstGlobal_eq_find, hfind]
  cases hf4 : a0.family == "inet"
  · rw [if_neg (by simp [hf4])] at hscan
    simp only [setForwardsPorts, hscan, pyOrElse, Option.isNone_none,
      Option.isNone_some, Bool.true_and, Bool.and_false, Bool.false_eq_true,
      if_false, Option.getD_some, hnet, hfwd]
    refine ⟨_, _, rfl, rfl, ?_⟩
    intro p hp
    rw [List.mem_map] at hp
    obtain ⟨f, _, rfl⟩ := hp
    rfl
  · rw [if_pos (by simp [hf4])] at hscan
    simp only [setForwardsPorts, hscan, pyOrElse, hne, Option.isNone_none,
      Option.isNone_some, Bool.false_and, Bool.false_eq_true, if_false,
      Option.getD_some, hnet, hfwd]
    refine ⟨_, _, rfl, rfl, ?_⟩
    intro p hp
    rw [List.mem_map] at hp
    obtain ⟨f, _, rfl⟩ := hp
    rfl

/-- The running instance of the concrete forwards scenario: the global
IPv6 address is listed before the global IPv4 one. -/
def instC10 : Instance :=
  { name := "web", status := "Running", devices := [], expandedDevices := [],
    stateAddresses := [⟨"inet6", "global", "fd42::5"⟩, ⟨"inet", "global", "10.0.0.5"⟩] }

/-- The pre-existing forward of the concrete forwards scenario. -/
def fwdC10 : NetForward := { listenAddress := "1.2.3.4", ports := [] }

/-- The network of the concrete forwards scenario. -/
def netC10 : Network :=
  { name := "n0", description := none, config := [], forwards := [fwdC10] }

/-- The hypervisor state of the concrete forwards scenario. -/
def stC10 : Hypervisor :=
  { instances := [instC10], networks := [netC10], acls := [] }

/-- C10 (witness): with a global IPv6 listed before a global IPv4, the
added mapping targets the IPv6 address even though a global IPv4 exists. -/
theorem C10_forward_target_is_first_global_witness :
    ∃ st1 added, setForwardsPorts stC10 instC10 "n0" "1.2.3.4"
        [⟨"80", "8080", "tcp"⟩]
      = Except.ok (st1, "fd42::5", added)
      ∧ added = [⟨"tcp", "80", "fd42::5", "8080"⟩]
      ∧ ∀ p, p ∈ added → p.targetAddress = "fd42::5" := by
  obtain ⟨st1, added, h1, h2, h3⟩ := C10_forward_target_is_first_global
    stC10 instC10 "n0" "1.2.3.4" [⟨"80", "8080", "tcp"⟩]
    ⟨"inet6", "global", "fd42::5"⟩ netC10 fwdC10 rfl rfl rfl rfl
  refine ⟨st1, added, h1, ?_, h3⟩
  rw [h2]
  rfl

/-! ## C7: provisioning-source exclusivity -/

/-- C7 (counterexample): an input with neither `launch` nor `copy` passes
`Config.__init__` validation and continues with exit status 0; the claim
that specifying neither is rejected as a validation failure is false. -/
theorem C7_counterexample :
    configInit "web" "local" "default" none none
      = Except.ok { name := "web", remote := "local", project := "default",
                    launch := none, copy := none }
    ∧ configLoadExitCode (configInit "web" "local" "default" none none) = 0 :=
  ⟨rfl, rfl⟩

/-- C7 (amended): `Config.__init__` enforces at most one provisioning
source: inputs specifying both `launch` and `copy` are rejected with a
non-zero exit; any other combination, including neither source, is
accepted by validation. -/
theorem C7_source_exclusivity (nm rm pj : String) (l : Option LaunchSpec)
    (c : Option CopySpec) :
    (l.isSome = true ∧ c.isSome = true →
      configInit nm rm pj l c
          = Except.error "There can only be one of them: launch and copy"
        ∧ configLoadExitCode (configInit nm rm pj l c) = 1)
    ∧ (¬(l.isSome = true ∧ c.isSome = true) →
      configInit nm rm pj l c
          = Except.ok { name := nm, remote := rm, project := pj, launch := l, copy := c }
        ∧ configLoadExitCode (configInit nm rm pj l c) = 0) := by
  constructor
  · rintro ⟨h1, h2⟩
    constructor <;> simp [configInit, h1, h2, configLoadExitCode]
  · intro h
    have hb : (l.isSome && c.isSome) = false := by
      cases hl : l.isSome <;> cases hc : c.isSome <;> simp_all
    constructor <;> simp [configInit, hb, configLoadExitCode]

/-- C7 (witness): applying the amended theorem to a concrete input that
sets both sources. -/
theorem C7_source_exclusivity_witness :
    configInit "web" "local" "default"
        (some { imageName := "ubuntu", imageRemote := "images",
                config := none, isVM := false })
        (some { name := "tpl", remote := "local", project := none, config := none })
      = Except.error "There can only be one of them: launch and copy" :=
  ((C7_source_exclusivity "web" "local" "default"
      (some { imageName := "ubuntu", imageRemote := "images",
              config := none, isVM := false })
      (some { name := "tpl", remote := "local", project := none,
              config := none })).1 ⟨rfl, rfl⟩).1

/-! ## C8: exit code of a successful purge run -/

/-- The instance of the concrete purge scenario. -/
def purgeInst : Instance :=
  { name := "web", status := "stopped", devices := [],
    expandedDevices := [], stateAddresses := [] }

/-- The hypervisor state of the concrete purge scenario. -/
def purgeState : Hypervisor :=
  { instances := [purgeInst], networks := [], acls := [] }

/-- C8: on a purge invocation with a valid remote, project and existing
instance, the teardown completes normally, yet the purge branch exits with
code 1 (the unconditional `sys.exit(1)` on line 527), contradicting the
claim that a successful purge run exits 0. -/
theorem C8_successful_purge_exits_one :
    (destroy purgeState purgeInst (some IncusError.instanceIsNotRunning)
        (some IncusError.instanceIsAlreadyStopped) (fun _ => [])).outcome
      = Except.ok ()
    ∧ (purgeMain (some "local") (some "default") "web" ["local"] ["default"]
        purgeState (some IncusError.instanceIsNotRunning)
        (some IncusError.instanceIsAlreadyStopped) (fun _ => [])).1 = 1 :=
  ⟨rfl, rfl⟩

/-! ## C9: static IPv4 validation is literal-only -/

/-- The instance of the concrete static-IP scenario. -/
def instC9 : Instance :=
  { name := "web", status := "running",
    devices := [("eth0", [("name", "eth0"), ("type", "nic"), ("network", "testnet")])],
    expandedDevices := [("eth0", [("name", "eth0"), ("type", "nic"), ("network", "testnet")])],
    stateAddresses := [] }

/-- C9 (counterexample): the explicit static IPv4 `10.0.0.5` lies outside
the network's declared subnet `192.168.1.0/24`, yet `Config.Network`
validation accepts it and `setStaticIP` writes it into the device override
verbatim; the claim that an out-of-subnet static IPv4 is rejected is false. -/
theorem C9_counterexample :
    networkSpecValidateIPv4 (some "10.0.0.5") = Except.ok ()
    ∧ inCIDR4 "10.0.0.5" "192.168.1.0" 24 = false
    ∧ (∃ devs, setStaticIP instC9 [("ipv4.address", "192.168.1.1/24")]
          (some "10.0.0.5") none = Except.ok devs
        ∧ dictLookup ((dictLookup devs "eth0").getD []) "ipv4.address"
            = some "10.0.0.5") :=
  ⟨rfl, by decide,
   [("eth0", [("name", "eth0"), ("type", "nic"), ("network", "testnet"),
              ("ipv4.address", "10.0.0.5")])], rfl, rfl⟩

/-- C9 (amended): an explicit static IPv4 is validated only as a
well-formed IPv4 literal; no subnet containment is checked, and
`setStaticIP` writes the caller's value into the eth0 device override
unchanged, whatever the network's config declares. -/
theorem C9_static_ipv4_literal_only (s : String) (hv : isValidIPv4 s = true)
    (hne : s.isEmpty = false) (hf : isFalse s = false)
    (inst : Instance) (netConfig : List (String × String))
    (h0 : (dictLookup inst.devices "eth0").isSome = true) :
    networkSpecValidateIPv4 (some s) = Except.ok ()
    ∧ ∃ devs, setStaticIP inst netConfig (some s) none = Except.ok devs
        ∧ dictLookup ((dictLookup devs "eth0").getD []) "ipv4.address" = some s := by
  constructor
  · simp [networkSpecValidateIPv4, hne, hf, hv]
  · have h4 : pyTruthyStr (some s) = true := by simp [pyTruthyStr, hne]
    have h5 : pyTruthyStr (none : Option String) = false := rfl
    simp only [setStaticIP, h0, h4, eq_self_iff_true, if_true, Option.getD_some]
    refine ⟨_, rfl, ?_⟩
    rw [dictLookup_dictInsert_self, Option.getD_some]
    cases h6 : pyTruthyStr (dictLookup netConfig "ipv6.dhcp.stateful")
    · rw [if_neg (by simp [h6]), dictLookup_dictInsert_self]
    · rw [if_pos (by simp [h6]), if_neg (by simp [h5])]
      cases hb : firstGlobal6 inst.stateAddresses
      · simp only [hb]
        rw [dictLookup_dictInsert_self]
      · simp only [hb]
        rw [dictLookup_dictInsert_ne _ _ _ _ (by decide), dictLookup_dictInsert_self]

/-- C9 (witness): the amended theorem applied to the concrete instance and
an arbitrary declared subnet. -/
theorem C9_static_ipv4_literal_only_witness :
    networkSpecValidateIPv4 (some "10.0.0.5") = Except.ok ()
    ∧ ∃ devs, setStaticIP instC9 [("ipv4.address", "192.168.1.1/24")]
        (some "10.0.0.5") none = Except.ok devs
      ∧ dictLookup ((dictLookup devs "eth0").getD []) "ipv4.address"
          = some "10.0.0.5" :=
  C9_static_ipv4_literal_only "10.0.0.5" (by decide) (by decide) (by decide)
    instC9 [("ipv4.address", "192.168.1.1/24")] (by decide)

end IncusTrack
